import Mathlib

/-!
Verification of the CryptoPortfolio balance-synchronization engine.

This file gives a shallow embedding of the engine found in
`internal/services/web3_service.go` (address validation, token-bucket rate
limiter, retrying chain client) and in the balance fetcher service
(`balance_fetcher_service.go`: worker-pool cycle, per-user refresh,
snapshot persistence, lifecycle Start and Stop), together with the model
types of `internal/models` and the repository operations of
`internal/repository/watchlist_repository.go`, and proves or refutes the
frozen specification claims about them.

Conventions of the embedding:
- Go strings are Lean `String` values; byte length and character length
  agree on the ASCII inputs considered here.
- `math/big` integers fetched from the chain are non-negative and are
  modelled as `Nat`; persisting `balance.String()` becomes `toString`.
- External effects (database queries, chain RPC, the clock) are oracles
  passed in an environment structure; an oracle indexed by `Nat` receives
  the sequence number of the call, so any sequence of outcomes that the
  running program can observe is representable.
- Concurrent components are modelled by explicit traces or step
  relations: the rate limiter by a timed event trace, the scheduler
  lifecycle by a small-step transition system.
-/

/-! ## Address validation (web3_service.go lines 225-238) -/

/-- Character-level test for a hexadecimal digit, used by the
specification-side predicate below. -/
def hexDigit (c : Char) : Bool :=
  ('0' ≤ c && c ≤ '9') || ('a' ≤ c && c ≤ 'f') || ('A' ≤ c && c ≤ 'F')

/-- Go `strings.HasPrefix(address, "0x")`, written over the character list
so that it evaluates by kernel reduction. -/
def hasPrefix0x (s : String) : Bool :=
  match s.toList with
  | '0' :: 'x' :: _ => true
  | _ => false

/-- Embedding of `ValidateAddress` (web3_service.go:226-238).  The source
checks the `0x` prefix and that the length is 42, then computes
`common.HexToAddress(address)` and discards the result (`_ =`), returning
true unconditionally: `HexToAddress` in go-ethereum never fails, so no
hexadecimal check actually happens. -/
def ValidateAddress (address : String) : Bool :=
  if !(hasPrefix0x address) then false
  else if !(address.length == 42) then false
  else true

/-- Modelled from the spec: the format the specification describes for
`ValidateAddress`, namely `0x` followed by exactly 40 hexadecimal
characters.  Stated separately from the source embedding so the two can be
compared. -/
def specValidAddress (s : String) : Bool :=
  hasPrefix0x s && (s.length == 42) && (s.toList.drop 2).all hexDigit

/-- A length-42 string with the `0x` prefix whose remaining 40 characters
are not hexadecimal. -/
def badHexAddr : String := "0xzzzzzzzzzzzzzzzzzzzzzzzzzzzzzzzzzzzzzzzz"

/-- A well-formed address: `0x` followed by 40 hexadecimal characters. -/
def addrOk : String := "0xaaaaaaaaaaaaaaaaaaaaaaaaaaaaaaaaaaaaaaaa"

/-! ## Chain client with retry (web3_service.go lines 94-192)

`GetETHBalance` and `GetTokenBalance` validate the address, wait on the
rate limiter, then attempt the underlying fetch up to 3 times, sleeping
`1<<(attempt-1)` seconds between attempts unless the context has been
cancelled.  The embedding records, besides the result, how many network
attempts were made, which backoff waits (in seconds) were performed, and
whether the rate limiter was consulted at all. -/

/-- Errors a balance call can return: the validation error (source line 96
or 151), the context error from `ctx.Err()`, or the aggregated error after
three failed attempts that wraps the last cause (lines 135 and 191). -/
inductive Web3Error where
  | invalidAddress (msg : String)
  | ctxCanceled
  | retriesExhausted (last : String)
deriving DecidableEq

/-- Decidable equality for `Except` results, needed so concrete call
traces can be compared by evaluation. -/
instance {ε α : Type} [DecidableEq ε] [DecidableEq α] : DecidableEq (Except ε α) := fun a b =>
  match a, b with
  | Except.ok x, Except.ok y =>
    if h : x = y then isTrue (by simp [h]) else isFalse (by simp [h])
  | Except.error x, Except.error y =>
    if h : x = y then isTrue (by simp [h]) else isFalse (by simp [h])
  | Except.ok _, Except.error _ => isFalse (by simp)
  | Except.error _, Except.ok _ => isFalse (by simp)

/-- Observable trace of the retry loop: result, number of fetch attempts
performed, and the backoff waits (seconds) slept between attempts. -/
structure RetryTrace where
  result : Except Web3Error Nat
  attempts : Nat
  waits : List Nat
deriving DecidableEq

/-- Environment of one balance call.  `ctxDone` says whether the context
passed by the caller is already cancelled or expired (held fixed for the
duration of the call).  `tokenReady` says whether a rate-limiter token is
sitting in the bucket when `Wait` runs its select, and `selectToken` which
branch the Go runtime picks when both the token branch and the
cancellation branch are ready (the choice is random in Go, so the model
quantifies over it).  `fetchETH i` and `fetchTok i` are the outcomes of
the i-th network attempt of `fetchETHBalance` and `fetchTokenBalance`. -/
structure ChainEnv where
  ctxDone : Bool
  tokenReady : Bool
  selectToken : Bool
  fetchETH : Nat → Except String Nat
  fetchTok : Nat → Except String Nat

/-- Embedding of `RateLimiter.Wait` (web3_service.go:64-71): a select on
the token channel and `ctx.Done()`.  With a live context the call blocks
until the refill goroutine supplies a token and then succeeds; with a
cancelled context it returns `ctx.Err()` unless a token is ready and the
runtime picks that branch. -/
def limiterWait (env : ChainEnv) : Except Web3Error Unit :=
  if env.ctxDone && !(env.tokenReady && env.selectToken) then
    Except.error Web3Error.ctxCanceled
  else Except.ok ()

/-- Embedding of the retry loop shared by both balance getters
(web3_service.go:108-135 and 163-191).  `attempt` is the 1-based attempt
counter of the Go `for` loop and `fuel` the number of attempts the loop
will still make, so the public entry points call it with `attempt = 1`,
`fuel = 3`.  On a failed attempt the loop returns `ctx.Err()` if the
context is done; otherwise, when attempts remain, it sleeps
`1<<(attempt-1)` seconds (the select against `ctx.Done()` completes the
sleep because `ctxDone` is false on this path) and retries; after the
last failed attempt it returns the aggregated error wrapping the last
cause.  The `fuel = 0` branch is unreachable from the entry points. -/
def retryLoop (fetch : Nat → Except String Nat) (ctxDone : Bool) :
    Nat → Nat → RetryTrace
  | _, 0 => ⟨Except.error Web3Error.ctxCanceled, 0, []⟩
  | attempt, 1 =>
    match fetch attempt with
    | Except.ok b => ⟨Except.ok b, 1, []⟩
    | Except.error e =>
      if ctxDone then ⟨Except.error Web3Error.ctxCanceled, 1, []⟩
      else ⟨Except.error (Web3Error.retriesExhausted e), 1, []⟩
  | attempt, fuel + 2 =>
    match fetch attempt with
    | Except.ok b => ⟨Except.ok b, 1, []⟩
    | Except.error _ =>
      if ctxDone then ⟨Except.error Web3Error.ctxCanceled, 1, []⟩
      else
        let rest := retryLoop fetch ctxDone (attempt + 1) (fuel + 1)
        ⟨rest.result, rest.attempts + 1, 2 ^ (attempt - 1) :: rest.waits⟩

/-- Observable trace of a whole balance call: result, whether the rate
limiter `Wait` was reached, attempts made, and backoff waits slept. -/
structure CallTrace where
  result : Except Web3Error Nat
  limiterReached : Bool
  attempts : Nat
  waits : List Nat
deriving DecidableEq

/-- Embedding of `GetETHBalance` (web3_service.go:94-136): validate the
address, wait on the rate limiter, then run the retry loop with 3
attempts. -/
def GetETHBalance (env : ChainEnv) (address : String) : CallTrace :=
  if !(ValidateAddress address) then
    ⟨Except.error (Web3Error.invalidAddress "invalid Ethereum address"), false, 0, []⟩
  else
    match limiterWait env with
    | Except.error e => ⟨Except.error e, true, 0, []⟩
    | Except.ok _ =>
      let r := retryLoop env.fetchETH env.ctxDone 1 3
      ⟨r.result, true, r.attempts, r.waits⟩

/-- Embedding of `GetTokenBalance` (web3_service.go:149-192): validate
both addresses, wait on the rate limiter, then run the retry loop with 3
attempts. -/
def GetTokenBalance (env : ChainEnv) (tokenAddress walletAddress : String) : CallTrace :=
  if !(ValidateAddress tokenAddress && ValidateAddress walletAddress) then
    ⟨Except.error (Web3Error.invalidAddress "invalid address"), false, 0, []⟩
  else
    match limiterWait env with
    | Except.error e => ⟨Except.error e, true, 0, []⟩
    | Except.ok _ =>
      let r := retryLoop env.fetchTok env.ctxDone 1 3
      ⟨r.result, true, r.attempts, r.waits⟩

/-- Environment in which the chain endpoint fails every attempt and the
context stays live. -/
def chainEnvFail : ChainEnv :=
  ⟨false, true, true, fun _ => Except.error "connection refused",
    fun _ => Except.error "connection refused"⟩

/-- Environment in which the caller context is already cancelled when the
call starts, and the attempt it may still make fails with the context
error of the underlying client. -/
def chainEnvDone : ChainEnv :=
  ⟨true, false, false, fun _ => Except.error "context canceled",
    fun _ => Except.error "context canceled"⟩

/-! ## Rate limiter (web3_service.go lines 35-71)

`NewRateLimiter(rate)` builds a channel of capacity `rate` (the bucket,
initially empty) and a ticker firing every `1/rate` second; the refill
goroutine pushes one token per tick, dropping it when the bucket is full
(the select default); `Wait` consumes one token per successful call.

The model measures time in tick units: with a rate of `cap` tokens per
second one tick unit is `1/cap` second, so a rolling 1-second window is
any half-open interval `(t, t + cap]` of tick units.  An execution is a
trace of refill and acquire events with nondecreasing timestamps; each
refill carries the instant its tick fired, and the ticker delivers its
i-th tick strictly later than the previous one (exactly one per unit when
none is dropped, fewer when the refill goroutine misses ticks, so the
times are only required to be strictly increasing naturals starting after
time 0).  An acquire event is a `Wait` call consuming a token, which
channel semantics permit only when the bucket is non-empty. -/

/-- One event of a rate-limiter execution: a ticker refill or a
successful token acquisition, stamped with its time in tick units. -/
inductive RLEvent where
  | refill (time : Nat)
  | acquire (time : Nat)
deriving DecidableEq

/-- Timestamp of an event. -/
def RLEvent.time : RLEvent → Nat
  | RLEvent.refill t => t
  | RLEvent.acquire t => t

/-- Whether an event is a token acquisition. -/
def RLEvent.isAcq : RLEvent → Bool
  | RLEvent.refill _ => false
  | RLEvent.acquire _ => true

/-- Bucket semantics over a trace: a refill adds a token, clamped at the
capacity (the select default of `refill` drops the token when the channel
is full); an acquire removes one token and is impossible (`none`) when the
bucket is empty, since `Wait` blocks then.  Returns the final token count
of a feasible trace. -/
def rlRun (cap : Nat) (tokens : Nat) : List RLEvent → Option Nat
  | [] => some tokens
  | RLEvent.refill _ :: es => rlRun cap (min (tokens + 1) cap) es
  | RLEvent.acquire _ :: es =>
    if tokens = 0 then none else rlRun cap (tokens - 1) es

/-- Event times are nondecreasing along the trace. -/
def timesSorted : List RLEvent → Bool
  | [] => true
  | [_] => true
  | e1 :: e2 :: es => decide (e1.time ≤ e2.time) && timesSorted (e2 :: es)

/-- Refill times are strictly increasing naturals, each later than `last`
(the ticker fires at most once per tick unit; `last = 0` initially, the
first tick coming at time 1 or later). -/
def refillsSpaced (last : Nat) : List RLEvent → Bool
  | [] => true
  | RLEvent.refill t :: es => decide (last < t) && refillsSpaced t es
  | RLEvent.acquire _ :: es => refillsSpaced last es

/-- Whether a timestamp lies in the rolling 1-second window starting
right after `t`, i.e. in `(t, t + cap]` tick units. -/
def rlInWindow (t cap u : Nat) : Bool :=
  decide (t < u) && decide (u ≤ t + cap)

/-- Number of successful acquisitions whose time lies in the window
`(t, t + cap]`. -/
def acqInWindow (t cap : Nat) (es : List RLEvent) : Nat :=
  (es.filter (fun e => e.isAcq && rlInWindow t cap e.time)).length

/-- Number of refills whose time lies in the window `(t, t + cap]`. -/
def refillsInWindow (t cap : Nat) (es : List RLEvent) : Nat :=
  (es.filter (fun e => !e.isAcq && rlInWindow t cap e.time)).length

/-- A feasible execution of a limiter of capacity (and rate) `cap`:
positive rate, the trace is realizable from the initially empty bucket,
times are nondecreasing, and refills are properly spaced ticks. -/
def ValidExec (cap : Nat) (es : List RLEvent) : Bool :=
  decide (0 < cap) && (rlRun cap 0 es).isSome && timesSorted es && refillsSpaced 0 es

/-- A burst execution for rate 2: the bucket fills to capacity before the
window opens, and the two refills inside the window are also consumed
there, so 4 acquisitions succeed inside one rolling second. -/
def burstTrace : List RLEvent :=
  [RLEvent.refill 1, RLEvent.refill 2, RLEvent.acquire 3, RLEvent.acquire 3,
    RLEvent.refill 3, RLEvent.acquire 3, RLEvent.refill 4, RLEvent.acquire 4]

/-- A small feasible execution for rate 1, used as a witness input. -/
def calmTrace : List RLEvent := [RLEvent.refill 1, RLEvent.acquire 1]

/-! ## Data model (internal/models/watchlist.go)

Only the fields the synchronization engine reads are modelled; GORM
bookkeeping columns (created/updated/deleted timestamps) play no role in
the claims. -/

/-- `models.WatchlistWallet`: a tracked wallet address owned by a user. -/
structure WatchlistWallet where
  id : Nat
  userID : Nat
  walletAddress : String
deriving DecidableEq

/-- `models.TrackedToken`: a tracked token owned by a user;
`tokenAddress = none` marks the native asset (ETH). -/
structure TrackedToken where
  id : Nat
  userID : Nat
  tokenAddress : Option String
  tokenSymbol : String
deriving DecidableEq

/-- `models.WalletBalance`: one balance snapshot row. -/
structure WalletBalance where
  walletID : Nat
  tokenID : Nat
  balance : String
  fetchedAt : Nat
deriving DecidableEq

/-- `fetchTask` (balance_fetcher_service.go:224-227): a wallet address
paired with a token address, `none` for ETH. -/
structure FetchTask where
  walletAddress : String
  tokenAddress : Option String
deriving DecidableEq

/-- The successful part of a `fetchResult`
(balance_fetcher_service.go:230-235). -/
structure FetchResult where
  walletAddress : String
  tokenAddress : Option String
  balance : Nat
deriving DecidableEq

/-! ## Balance fetcher service (balance_fetcher_service.go)

The service runs against a repository, a chain client and a cache, all
injected interfaces; they are modelled as oracles in `CycleEnv`.  The
`wallet_balances` table is the only durable state the claims mention; it
is a list to which `CreateBalance`
(watchlist_repository.go:114-116, a GORM `Create`, i.e. an insert of a
fresh row) appends.  Worker results are collected in arrival order, which
the model linearizes as enumeration order of the task list; the claims
proved about the cycle do not depend on that order.  Cache writes and
invalidations never influence the returned value or the stored rows, so
the model keeps no cache state. -/

/-- Mutable state threaded through a cycle: the `wallet_balances` table
plus the oracle cursors and the tallied counters of the collector loop
(`successCount` and `errorCount` of fetchAllBalances; `errorCount` also
counts the failures which `FetchBalancesForUser` merely logs). -/
structure SyncState where
  balances : List WalletBalance
  fetchIdx : Nat
  storeIdx : Nat
  successCount : Nat
  errorCount : Nat
deriving DecidableEq

/-- The state before any cycle has run. -/
def initSync : SyncState := ⟨[], 0, 0, 0, 0⟩

/-- Advance the chain-call cursor (one more balance fetch issued). -/
def bumpFetch (st : SyncState) : SyncState := { st with fetchIdx := st.fetchIdx + 1 }

/-- Advance the store cursor (one more store attempt issued). -/
def bumpStore (st : SyncState) : SyncState := { st with storeIdx := st.storeIdx + 1 }

/-- Tally one logged failure. -/
def tallyError (st : SyncState) : SyncState := { st with errorCount := st.errorCount + 1 }

/-- Tally one stored success. -/
def tallySuccess (st : SyncState) : SyncState := { st with successCount := st.successCount + 1 }

/-- Insert one snapshot row: GORM `Create` appends a fresh row to
`wallet_balances` (watchlist_repository.go:114-116). -/
def appendSnap (st : SyncState) (b : WalletBalance) : SyncState :=
  { st with balances := st.balances ++ [b] }

/-- Oracles of one service run.  `allWallets` and `allTokens` are the
initial enumeration of `fetchAllBalances`; `walletsByUser` and
`tokensByUser` the per-user enumeration of `FetchBalancesForUser`;
`storeWallets i` and `storeTokens i` the repository reads that the i-th
`storeBalance` call performs; `fetch i task` the outcome the chain client
returns for the i-th balance fetch (a context cancellation surfaces here
as the error the chain call returns); `createErr i` the outcome of the
i-th `CreateBalance` insert (`none` = success); `now i` the clock read
stamped on the i-th created snapshot. -/
structure CycleEnv where
  allWallets : Except String (List WatchlistWallet)
  allTokens : Except String (List TrackedToken)
  walletsByUser : Nat → Except String (List WatchlistWallet)
  tokensByUser : Nat → Except String (List TrackedToken)
  storeWallets : Nat → Except String (List WatchlistWallet)
  storeTokens : Nat → Except String (List TrackedToken)
  fetch : Nat → FetchTask → Except String Nat
  createErr : Nat → Option String
  now : Nat → Nat

/-- The token-matching test of the `storeBalance` lookup loop
(balance_fetcher_service.go:391-406): an ETH result matches the first
token with a nil address, a token result the first token with the same
contract address. -/
def tokenLookupMatches (resultAddr : Option String) (t : TrackedToken) : Bool :=
  match resultAddr, t.tokenAddress with
  | none, none => true
  | some a, some b => a == b
  | _, _ => false

/-- Embedding of `storeBalance` (balance_fetcher_service.go:365-440): it
re-reads all wallets and all tokens of every user, resolves the result
addresses to the first wallet and the first token that match, inserts a
new snapshot row, and caches it (the cache write failure is only logged
and is not modelled).  Returns the new state and the error the Go
function would return, `none` on success. -/
def storeBalance (env : CycleEnv) (st : SyncState) (r : FetchResult) :
    SyncState × Option String :=
  match env.storeWallets st.storeIdx with
  | Except.error e => (bumpStore st, some ("failed to get wallets: " ++ e))
  | Except.ok wallets =>
    match env.storeTokens st.storeIdx with
    | Except.error e => (bumpStore st, some ("failed to get tokens: " ++ e))
    | Except.ok tokens =>
      match wallets.find? (fun w => w.walletAddress == r.walletAddress) with
      | none => (bumpStore st, some ("wallet not found: " ++ r.walletAddress))
      | some wallet =>
        match tokens.find? (fun t => tokenLookupMatches r.tokenAddress t) with
        | none => (bumpStore st, some "token not found")
        | some token =>
          match env.createErr st.storeIdx with
          | some e => (bumpStore st, some ("failed to store balance: " ++ e))
          | none =>
            (appendSnap (bumpStore st)
                ⟨wallet.id, token.id, toString r.balance, env.now st.storeIdx⟩,
              none)

/-- One worker-plus-collector step of the global cycle for one task
(balance_fetcher_service.go:247-275 and 193-216): fetch the balance via
the chain client, then on success store it; a fetch error or a store
error is logged and tallied, never raised. -/
def runTask (env : CycleEnv) (st : SyncState) (task : FetchTask) : SyncState :=
  match env.fetch st.fetchIdx task with
  | Except.error _ => tallyError (bumpFetch st)
  | Except.ok b =>
    match storeBalance env (bumpFetch st) ⟨task.walletAddress, task.tokenAddress, b⟩ with
    | (st2, some _) => tallyError st2
    | (st2, none) => tallySuccess st2

/-- The collector drains all results of the enqueued tasks
(balance_fetcher_service.go:193-216), linearized in task order. -/
def processTasks (env : CycleEnv) (st : SyncState) (tasks : List FetchTask) : SyncState :=
  tasks.foldl (runTask env) st

/-- The task enumeration of the dispatcher goroutine
(balance_fetcher_service.go:161-181): the cross product of wallets and
tokens restricted to pairs owned by the same user, in loop order. -/
def mkTasks (wallets : List WatchlistWallet) (tokens : List TrackedToken) : List FetchTask :=
  wallets.flatMap (fun w =>
    tokens.filterMap (fun t =>
      if w.userID == t.userID then some ⟨w.walletAddress, t.tokenAddress⟩ else none))

/-- Embedding of `fetchAllBalances` (balance_fetcher_service.go:125-221):
enumerate all wallets and tokens (each failure aborts the cycle with a
wrapped error), return early when either list is empty, otherwise process
every matching pair; per-pair failures are only tallied.  Returns the new
state and the error the Go function returns, `none` on success. -/
def fetchAllBalances (env : CycleEnv) (st : SyncState) : SyncState × Option String :=
  match env.allWallets with
  | Except.error e => (st, some ("failed to get wallets: " ++ e))
  | Except.ok wallets =>
    match env.allTokens with
    | Except.error e => (st, some ("failed to get tokens: " ++ e))
    | Except.ok tokens =>
      if wallets.isEmpty || tokens.isEmpty then (st, none)
      else (processTasks env st (mkTasks wallets tokens), none)

/-- Embedding of `fetchAndStoreBalance` (balance_fetcher_service.go:316-362),
the per-pair body of the user refresh: fetch via the chain client, then
insert a snapshot row directly under the wallet and token ids of the pair
(no address re-resolution happens on this path); the cache write failure
is only logged. -/
def fetchAndStoreBalance (env : CycleEnv) (st : SyncState)
    (wallet : WatchlistWallet) (token : TrackedToken) : SyncState × Option String :=
  match env.fetch st.fetchIdx ⟨wallet.walletAddress, token.tokenAddress⟩ with
  | Except.error e => (bumpFetch st, some e)
  | Except.ok b =>
    match env.createErr st.storeIdx with
    | some e => (bumpStore (bumpFetch st), some ("failed to store balance: " ++ e))
    | none =>
      (appendSnap (bumpStore (bumpFetch st))
          ⟨wallet.id, token.id, toString b, env.now st.storeIdx⟩,
        none)

/-- The nested wallet-times-token loop of `FetchBalancesForUser`
(balance_fetcher_service.go:297-306): every per-pair error is logged and
the loop continues. -/
def userPairLoop (env : CycleEnv) (st : SyncState)
    (wallets : List WatchlistWallet) (tokens : List TrackedToken) : SyncState :=
  wallets.foldl (fun acc w =>
    tokens.foldl (fun acc2 t =>
      match fetchAndStoreBalance env acc2 w t with
      | (st2, some _) => tallyError st2
      | (st2, none) => st2) acc) st

/-- Embedding of `FetchBalancesForUser` (balance_fetcher_service.go:279-313):
enumerate the wallets and tokens of one user (each failure returns a
wrapped error), run the pair loop under the 2-minute deadline context,
then invalidate the cache entry of the user (best effort, not modelled)
and return nil. -/
def FetchBalancesForUser (env : CycleEnv) (userID : Nat) (st : SyncState) :
    SyncState × Option String :=
  match env.walletsByUser userID with
  | Except.error e => (st, some ("failed to get user wallets: " ++ e))
  | Except.ok wallets =>
    match env.tokensByUser userID with
    | Except.error e => (st, some ("failed to get user tokens: " ++ e))
    | Except.ok tokens => (userPairLoop env st wallets tokens, none)

/-- Whether an `Except` is a success. -/
def exceptOk {ε α : Type} : Except ε α → Bool
  | Except.ok _ => true
  | Except.error _ => false

/-! ## Concrete scenario environments used by counterexamples and
witnesses. -/

/-- A wallet of user 1. -/
def walletU1 : WatchlistWallet := ⟨1, 1, "0xW1"⟩

/-- A wallet of user 2. -/
def walletU2 : WatchlistWallet := ⟨2, 2, "0xW2"⟩

/-- The native-asset token tracked by user 1. -/
def tokenU1 : TrackedToken := ⟨1, 1, none, "ETH"⟩

/-- The native-asset token tracked by user 2. -/
def tokenU2 : TrackedToken := ⟨2, 2, none, "ETH"⟩

/-- A run in which every chain call reports the context cancellation of a
cycle cancelled after its enumeration succeeded: the repository reads
succeed and every balance fetch returns the context error. -/
def cancelEnv : CycleEnv :=
  ⟨Except.ok [walletU1], Except.ok [tokenU1],
    fun _ => Except.ok [walletU1], fun _ => Except.ok [tokenU1],
    fun _ => Except.ok [walletU1], fun _ => Except.ok [tokenU1],
    fun _ _ => Except.error "context canceled",
    fun _ => none, fun i => i⟩

/-- A run with two users each tracking their own wallet and the native
asset, every fetch and insert succeeding. -/
def crossEnv : CycleEnv :=
  ⟨Except.ok [walletU1, walletU2], Except.ok [tokenU1, tokenU2],
    fun _ => Except.ok [walletU1, walletU2], fun _ => Except.ok [tokenU1, tokenU2],
    fun _ => Except.ok [walletU1, walletU2], fun _ => Except.ok [tokenU1, tokenU2],
    fun _ _ => Except.ok 7,
    fun _ => none, fun i => i⟩

/-- A run with a single user, wallet and token, every fetch and insert
succeeding; the clock reads 100, 101, ... -/
def steadyEnv : CycleEnv :=
  ⟨Except.ok [walletU1], Except.ok [tokenU1],
    fun _ => Except.ok [walletU1], fun _ => Except.ok [tokenU1],
    fun _ => Except.ok [walletU1], fun _ => Except.ok [tokenU1],
    fun _ _ => Except.ok 5,
    fun _ => none, fun i => 100 + i⟩

/-! ## Service lifecycle (balance_fetcher_service.go lines 36-122)

`NewBalanceFetcherService` allocates one `stopChan`; `Start` registers
the fetcher and cleanup goroutines in the wait group and launches them;
`Stop` closes `stopChan` and blocks in `wg.Wait()` until both have
returned.  Two views are used: a functional one for the panic behaviour
of a repeated `Stop`, and a small-step transition system for the
join-before-return and no-write-after-stop claims. -/

/-- A Go runtime panic the lifecycle can raise. -/
inductive GoPanic where
  | closeOfClosedChannel
deriving DecidableEq

/-- The service struct as far as the lifecycle observes it: whether
`stopChan` has been closed and which background goroutines are still
running. -/
structure ServiceHandle where
  stopChanClosed : Bool
  fetcherRunning : Bool
  cleanupRunning : Bool
deriving DecidableEq

/-- `NewBalanceFetcherService` (balance_fetcher_service.go:36-51): a
fresh, open stop channel and no goroutines yet. -/
def NewBalanceFetcherService : ServiceHandle := ⟨false, false, false⟩

/-- `Start` (balance_fetcher_service.go:54-64): launches the balance
fetcher and the cleanup goroutine. -/
def StartService (h : ServiceHandle) : ServiceHandle :=
  { h with fetcherRunning := true, cleanupRunning := true }

/-- Go `close` on a channel: closing an already-closed channel panics. -/
def closeStopChan (alreadyClosed : Bool) : Except GoPanic Bool :=
  if alreadyClosed then Except.error GoPanic.closeOfClosedChannel
  else Except.ok true

/-- `Stop` (balance_fetcher_service.go:67-72): close `stopChan`, then
`wg.Wait()`; both goroutines observe the closed channel in their select
and return, after which `Stop` itself returns.  Closing the channel a
second time panics before the wait is reached. -/
def StopService (h : ServiceHandle) : Except GoPanic ServiceHandle :=
  match closeStopChan h.stopChanClosed with
  | Except.error p => Except.error p
  | Except.ok _ => Except.ok ⟨true, false, false⟩

/-- The handle after one completed `Start`-then-`Stop` round. -/
def stoppedHandle : ServiceHandle := ⟨true, false, false⟩

/-! ## Shutdown transition system

States track the closed flag of `stopChan`, whether the two background
goroutines registered by `Start` are still running (the two counts of
`bfs.wg`), whether `Stop` has returned from `wg.Wait()`, a clock, and the
list of snapshot timestamps persisted by the fetcher goroutine.  Steps
over-approximate the scheduler: goroutines may exit at any time (their
selects observe `stopChan` or the parent context), the fetcher may
persist a snapshot while it runs, and `Stop` can return only once the
channel is closed and both wait-group members are done, which is exactly
the blocking contract of `wg.Wait()`
(balance_fetcher_service.go:58-72, 76, 102). -/

/-- A lifecycle state of the running service. -/
structure SchedState where
  stopChanClosed : Bool
  fetcherRunning : Bool
  cleanupRunning : Bool
  stopReturned : Bool
  clock : Nat
  snapshots : List Nat
deriving DecidableEq

/-- The state right after `Start`: both goroutines registered and
running, the stop channel open. -/
def schedInit : SchedState := ⟨false, true, true, false, 0, []⟩

/-- One scheduler step of the lifecycle. -/
inductive SchedStep : SchedState → SchedState → Prop where
  | tick (s : SchedState) :
      SchedStep s { s with clock := s.clock + 1 }
  | persistSnapshot (s : SchedState) :
      s.fetcherRunning = true →
      SchedStep s { s with snapshots := s.clock :: s.snapshots }
  | fetcherExit (s : SchedState) :
      SchedStep s { s with fetcherRunning := false }
  | cleanupExit (s : SchedState) :
      SchedStep s { s with cleanupRunning := false }
  | stopSignal (s : SchedState) :
      SchedStep s { s with stopChanClosed := true }
  | stopReturn (s : SchedState) :
      s.stopChanClosed = true → s.fetcherRunning = false → s.cleanupRunning = false →
      SchedStep s { s with stopReturned := true }

/-- Reachability along `SchedStep`. -/
inductive SchedReaches : SchedState → SchedState → Prop where
  | refl (s : SchedState) : SchedReaches s s
  | tail {s1 s2 s3 : SchedState} :
      SchedReaches s1 s2 → SchedStep s2 s3 → SchedReaches s1 s3

/-! ## Derived predicates used by the theorems. -/

/-- The balances table of `b` extends that of `a`: rows are only ever
appended, never rewritten or removed, by a sync operation. -/
def BalExt (a b : SyncState) : Prop :=
  ∃ added, b.balances = a.balances ++ added

/-- The snapshot `b` references a wallet row and a token row that some
repository read during the cycle returned (so both existed in the store
when the snapshot was written). -/
def SnapshotFromStore (env : CycleEnv) (b : WalletBalance) : Prop :=
  ∃ i wallets tokens w t,
    env.storeWallets i = Except.ok wallets ∧ env.storeTokens i = Except.ok tokens ∧
    w ∈ wallets ∧ t ∈ tokens ∧ b.walletID = w.id ∧ b.tokenID = t.id

/-- Lifecycle invariant: once `Stop` has returned, both background
goroutines have exited. -/
def SchedInv (s : SchedState) : Prop :=
  s.stopReturned = true → s.fetcherRunning = false ∧ s.cleanupRunning = false

/-- The fully stopped configuration: `Stop` returned and both goroutines
are gone. -/
def SchedStopped (s : SchedState) : Prop :=
  s.stopReturned = true ∧ s.fetcherRunning = false ∧ s.cleanupRunning = false

/-- Witness trace states: stop signalled. -/
def c9sClosed : SchedState := ⟨true, true, true, false, 0, []⟩

/-- Witness trace states: the fetcher goroutine has exited. -/
def c9sFd : SchedState := ⟨true, false, true, false, 0, []⟩

/-- Witness trace states: both goroutines have exited. -/
def c9sCd : SchedState := ⟨true, false, false, false, 0, []⟩

/-- Witness trace states: `Stop` has returned. -/
def c9sRet : SchedState := ⟨true, false, false, true, 0, []⟩

/-- Witness trace states: time passed after `Stop` returned. -/
def c9sTick : SchedState := ⟨true, false, false, true, 1, []⟩

/-! ## Helper lemmas: append-only balances. -/

/-- The fetch cursor bump does not touch the balances table. -/
@[simp] theorem bumpFetch_balances (st : SyncState) : (bumpFetch st).balances = st.balances := rfl

/-- The store cursor bump does not touch the balances table. -/
@[simp] theorem bumpStore_balances (st : SyncState) : (bumpStore st).balances = st.balances := rfl

/-- The failure tally does not touch the balances table. -/
@[simp] theorem tallyError_balances (st : SyncState) : (tallyError st).balances = st.balances := rfl

/-- The success tally does not touch the balances table. -/
@[simp] theorem tallySuccess_balances (st : SyncState) :
    (tallySuccess st).balances = st.balances := rfl

/-- Inserting appends exactly one row. -/
@[simp] theorem appendSnap_balances (st : SyncState) (b : WalletBalance) :
    (appendSnap st b).balances = st.balances ++ [b] := rfl

/-- States with equal balances extend each other. -/
theorem balExt_of_eq {a b : SyncState} (h : b.balances = a.balances) : BalExt a b :=
  ⟨[], by simp [h]⟩

/-- Reflexivity of table extension. -/
theorem balExt_rfl (a : SyncState) : BalExt a a := ⟨[], by simp⟩

/-- Transitivity of table extension. -/
theorem balExt_trans {a b c : SyncState} (h1 : BalExt a b) (h2 : BalExt b c) : BalExt a c := by
  obtain ⟨x, hx⟩ := h1
  obtain ⟨y, hy⟩ := h2
  exact ⟨x ++ y, by simp [hy, hx]⟩

/-- A fold whose every step only appends rows only appends rows. -/
theorem foldl_balExt {α : Type} (f : SyncState → α → SyncState)
    (hf : ∀ st x, BalExt st (f st x)) :
    ∀ (l : List α) (st : SyncState), BalExt st (l.foldl f st) := by
  intro l
  induction l with
  | nil => intro st; exact balExt_rfl st
  | cons x xs ih => intro st; exact balExt_trans (hf st x) (ih (f st x))

/-- `storeBalance` only appends to the balances table. -/
theorem storeBalance_balExt (env : CycleEnv) (st : SyncState) (r : FetchResult) :
    BalExt st (storeBalance env st r).1 := by
  unfold storeBalance
  repeat' split
  all_goals try exact balExt_of_eq rfl
  exact ⟨_, rfl⟩

/-- `runTask` only appends to the balances table. -/
theorem runTask_balExt (env : CycleEnv) (st : SyncState) (task : FetchTask) :
    BalExt st (runTask env st task) := by
  unfold runTask
  split
  · exact balExt_of_eq rfl
  next b heq =>
    split
    next st2 v heq2 =>
      have h := storeBalance_balExt env (bumpFetch st) ⟨task.walletAddress, task.tokenAddress, b⟩
      rw [heq2] at h
      obtain ⟨x, hx⟩ := h
      exact ⟨x, by simpa using hx⟩
    next st2 heq2 =>
      have h := storeBalance_balExt env (bumpFetch st) ⟨task.walletAddress, task.tokenAddress, b⟩
      rw [heq2] at h
      obtain ⟨x, hx⟩ := h
      exact ⟨x, by simpa using hx⟩

/-- The collector loop only appends to the balances table. -/
theorem processTasks_balExt (env : CycleEnv) (st : SyncState) (tasks : List FetchTask) :
    BalExt st (processTasks env st tasks) :=
  foldl_balExt (runTask env) (runTask_balExt env) tasks st

/-- `fetchAndStoreBalance` only appends to the balances table. -/
theorem fetchAndStoreBalance_balExt (env : CycleEnv) (st : SyncState)
    (w : WatchlistWallet) (t : TrackedToken) :
    BalExt st (fetchAndStoreBalance env st w t).1 := by
  unfold fetchAndStoreBalance
  repeat' split
  all_goals try exact balExt_of_eq rfl
  exact ⟨_, rfl⟩

/-- The per-user pair loop only appends to the balances table. -/
theorem userPairLoop_balExt (env : CycleEnv) (st : SyncState)
    (wallets : List WatchlistWallet) (tokens : List TrackedToken) :
    BalExt st (userPairLoop env st wallets tokens) := by
  refine foldl_balExt _ ?_ wallets st
  intro st1 w
  refine foldl_balExt _ ?_ tokens st1
  intro st2 t
  have h := fetchAndStoreBalance_balExt env st2 w t
  cases hs : fetchAndStoreBalance env st2 w t with
  | mk st3 err =>
    rw [hs] at h
    obtain ⟨x, hx⟩ := h
    cases err with
    | none => exact ⟨x, hx⟩
    | some e => exact ⟨x, by simpa using hx⟩

/-- Every row present after a `storeBalance` call was already present or
references a wallet and a token found by the address lookups against the
store. -/
theorem storeBalance_mem (env : CycleEnv) (st : SyncState) (r : FetchResult)
    (b : WalletBalance) (hb : b ∈ (storeBalance env st r).1.balances) :
    b ∈ st.balances ∨ SnapshotFromStore env b := by
  unfold storeBalance at hb
  repeat' split at hb
  all_goals try (left; simpa using hb)
  rename_i x1 wallets hw x2 tokens ht x3 wallet hfw x4 token hft x5 hc
  rw [appendSnap_balances, bumpStore_balances, List.mem_append] at hb
  rcases hb with hb | hb
  · exact Or.inl hb
  · right
    rw [List.mem_singleton] at hb
    subst hb
    exact ⟨st.storeIdx, wallets, tokens, wallet, token, hw, ht,
      List.mem_of_find?_eq_some hfw, List.mem_of_find?_eq_some hft, rfl, rfl⟩

/-- Every row present after one collector step was already present or
references rows read from the store. -/
theorem runTask_mem (env : CycleEnv) (st : SyncState) (task : FetchTask)
    (b : WalletBalance) (hb : b ∈ (runTask env st task).balances) :
    b ∈ st.balances ∨ SnapshotFromStore env b := by
  unfold runTask at hb
  split at hb
  · left; simpa using hb
  next v heq =>
    split at hb
    next st2 e heq2 =>
      have h := storeBalance_mem env (bumpFetch st) ⟨task.walletAddress, task.tokenAddress, v⟩ b
      rw [heq2] at h
      simpa using h (by simpa using hb)
    next st2 heq2 =>
      have h := storeBalance_mem env (bumpFetch st) ⟨task.walletAddress, task.tokenAddress, v⟩ b
      rw [heq2] at h
      simpa using h (by simpa using hb)

/-- Every row present after the collector loop was already present or
references rows read from the store. -/
theorem processTasks_mem (env : CycleEnv) :
    ∀ (tasks : List FetchTask) (st : SyncState) (b : WalletBalance),
      b ∈ (processTasks env st tasks).balances →
      b ∈ st.balances ∨ SnapshotFromStore env b := by
  intro tasks
  induction tasks with
  | nil => intro st b hb; exact Or.inl hb
  | cons task rest ih =>
    intro st b hb
    have hstep : processTasks env st (task :: rest) = processTasks env (runTask env st task) rest := rfl
    rw [hstep] at hb
    rcases ih (runTask env st task) b hb with h | h
    · exact runTask_mem env st task b h
    · exact Or.inr h

/-- Every enqueued task comes from a wallet and a token of the same
owning user (the owner check of the dispatcher loop,
balance_fetcher_service.go:167). -/
theorem mkTasks_owner (wallets : List WatchlistWallet) (tokens : List TrackedToken)
    (task : FetchTask) (h : task ∈ mkTasks wallets tokens) :
    ∃ w t, w ∈ wallets ∧ t ∈ tokens ∧ w.userID = t.userID ∧
      task.walletAddress = w.walletAddress ∧ task.tokenAddress = t.tokenAddress := by
  rw [mkTasks, List.mem_flatMap] at h
  obtain ⟨w, hw, hmem⟩ := h
  rw [List.mem_filterMap] at hmem
  obtain ⟨t, ht, heq⟩ := hmem
  by_cases hu : w.userID == t.userID
  · rw [if_pos hu] at heq
    cases heq
    exact ⟨w, t, hw, ht, by simpa using hu, rfl, rfl⟩
  · rw [if_neg hu] at heq
    cases heq

/-- Claim C6: `FetchBalancesForUser` returns an error precisely when
enumerating the wallets or the tokens of the user fails, and
`fetchAllBalances` returns an error precisely when its initial wallet or
token enumeration fails; every per-pair fetch or persistence failure is
absorbed by the loops (they return plain states, tallying failures) and
never surfaces to the caller, over all oracle outcomes. -/
theorem cycle_error_iff_enumeration_fails (env : CycleEnv) (u : Nat) (st : SyncState) :
    ((FetchBalancesForUser env u st).2 = none ↔
      exceptOk (env.walletsByUser u) = true ∧ exceptOk (env.tokensByUser u) = true) ∧
    ((fetchAllBalances env st).2 = none ↔
      exceptOk env.allWallets = true ∧ exceptOk env.allTokens = true) := by
  constructor
  · cases hw : env.walletsByUser u <;> cases ht : env.tokensByUser u <;>
      simp [FetchBalancesForUser, hw, ht, exceptOk]
  · cases hw : env.allWallets <;> cases ht : env.allTokens <;>
      simp [fetchAllBalances, hw, ht, exceptOk]
    split <;> simp

/-- Claim C2, counterexample: in a run whose enumeration succeeded and
whose every chain call then failed with the context-cancellation error (a
cycle cancelled mid-flight), `FetchBalancesForUser` returns nil, not a
cancellation error; the failure is only tallied. -/
theorem fetchForUser_ok_despite_cancellation :
    cancelEnv.fetch 0 ⟨"0xW1", none⟩ = Except.error "context canceled" ∧
    (FetchBalancesForUser cancelEnv 1 initSync).2 = none ∧
    (FetchBalancesForUser cancelEnv 1 initSync).1.errorCount = 1 ∧
    (FetchBalancesForUser cancelEnv 1 initSync).1.balances = [] := by decide

/-- Claim C2, amended: once the enumeration of wallets and tokens has
succeeded, `FetchBalancesForUser` returns nil whatever the chain calls
return, cancellation included, logging per-pair failures; snapshots
persisted before the cancellation remain, because the balances table is
only appended to. -/
theorem fetchForUser_cancellation_amended (env : CycleEnv) (u : Nat) (st : SyncState)
    (wallets : List WatchlistWallet) (tokens : List TrackedToken)
    (hw : env.walletsByUser u = Except.ok wallets)
    (ht : env.tokensByUser u = Except.ok tokens) :
    (FetchBalancesForUser env u st).2 = none ∧
    BalExt st (FetchBalancesForUser env u st).1 := by
  constructor
  · simp [FetchBalancesForUser, hw, ht]
  · simp only [FetchBalancesForUser, hw, ht]
    exact userPairLoop_balExt env st wallets tokens

/-- Witness for the amended claim C2 at the cancelled concrete run. -/
theorem fetchForUser_cancellation_amended_witness :
    (FetchBalancesForUser cancelEnv 1 initSync).2 = none ∧
    BalExt initSync (FetchBalancesForUser cancelEnv 1 initSync).1 :=
  fetchForUser_cancellation_amended cancelEnv 1 initSync [walletU1] [tokenU1] rfl rfl

/-- Claim C7: balance snapshots are append-only.  Both the global cycle
and the per-user refresh leave the existing balances list as a prefix and
only append new rows, and two successive cycles over the same
wallet-token pair produce two distinct, separately timestamped snapshots,
the second never overwriting the first. -/
theorem snapshots_append_only (env : CycleEnv) (u : Nat) (st : SyncState) :
    BalExt st (fetchAllBalances env st).1 ∧
    BalExt st (FetchBalancesForUser env u st).1 ∧
    (fetchAllBalances steadyEnv (fetchAllBalances steadyEnv initSync).1).1.balances =
      [⟨1, 1, "5", 100⟩, ⟨1, 1, "5", 101⟩] := by
  refine ⟨?_, ?_, by decide⟩
  · unfold fetchAllBalances
    repeat' split
    all_goals first
      | exact balExt_rfl st
      | exact processTasks_balExt env st _
  · unfold FetchBalancesForUser
    repeat' split
    all_goals first
      | exact balExt_rfl st
      | exact userPairLoop_balExt env st _ _

/-- Claim C4, counterexample: with two users each tracking their own
wallet and the native asset, the cycle persists the snapshot
wallet 2 with token 1, although wallet 2 belongs to user 2 and token 1 to
user 1: `storeBalance` resolves the nil token address to the first
nil-address token of any user. -/
theorem cycle_snapshot_cross_user :
    (fetchAllBalances crossEnv initSync).1.balances =
      [⟨1, 1, "7", 0⟩, ⟨2, 1, "7", 1⟩] ∧
    walletU2.id = 2 ∧ walletU2.userID = 2 ∧ tokenU1.id = 1 ∧ tokenU1.userID = 1 ∧
    crossEnv.allWallets = Except.ok [walletU1, walletU2] ∧
    crossEnv.allTokens = Except.ok [tokenU1, tokenU2] ∧
    (∀ w ∈ [walletU1, walletU2], w.id = 2 → w.userID = 2) ∧
    (∀ t ∈ [tokenU1, tokenU2], t.id = 1 → t.userID = 1) := by decide

/-- Every row present after a `fetchAndStoreBalance` call was already
present or carries exactly the wallet id and token id of the fetched
pair (balance_fetcher_service.go:337-343 builds the record from the pair
itself, with no address re-resolution). -/
theorem fetchAndStoreBalance_mem (env : CycleEnv) (st : SyncState)
    (w : WatchlistWallet) (t : TrackedToken) (b : WalletBalance)
    (hb : b ∈ (fetchAndStoreBalance env st w t).1.balances) :
    b ∈ st.balances ∨ (b.walletID = w.id ∧ b.tokenID = t.id) := by
  unfold fetchAndStoreBalance at hb
  repeat' split at hb
  all_goals try (left; simpa using hb)
  rw [appendSnap_balances, bumpStore_balances, bumpFetch_balances, List.mem_append] at hb
  rcases hb with hb | hb
  · exact Or.inl hb
  · rw [List.mem_singleton] at hb
    subst hb
    exact Or.inr ⟨rfl, rfl⟩

/-- The same, through the error-logging wrapper of the per-user loop
body. -/
theorem userPairStep_mem (env : CycleEnv) (w : WatchlistWallet) (t : TrackedToken)
    (st : SyncState) (b : WalletBalance)
    (hb : b ∈ (match fetchAndStoreBalance env st w t with
      | (st2, some _) => tallyError st2
      | (st2, none) => st2).balances) :
    b ∈ st.balances ∨ (b.walletID = w.id ∧ b.tokenID = t.id) := by
  rcases hs : fetchAndStoreBalance env st w t with ⟨st2, err⟩
  rw [hs] at hb
  have hb2 : b ∈ st2.balances := by cases err <;> simpa using hb
  exact fetchAndStoreBalance_mem env st w t b (by rw [hs]; exact hb2)

/-- A fold whose every step adds only rows satisfying `P x` leaves every
row either pre-existing or satisfying `P x` for some processed `x`. -/
theorem foldl_balances_mem {α : Type} (f : SyncState → α → SyncState)
    (P : α → WalletBalance → Prop)
    (hf : ∀ st x b, b ∈ (f st x).balances → b ∈ st.balances ∨ P x b) :
    ∀ (l : List α) (st : SyncState) (b : WalletBalance),
      b ∈ (l.foldl f st).balances → b ∈ st.balances ∨ ∃ x, x ∈ l ∧ P x b := by
  intro l
  induction l with
  | nil => intro st b hb; exact Or.inl hb
  | cons x xs ih =>
    intro st b hb
    rcases ih (f st x) b hb with h | ⟨y, hy, hp⟩
    · rcases hf st x b h with h2 | hp
      · exact Or.inl h2
      · exact Or.inr ⟨x, List.mem_cons_self x xs, hp⟩
    · exact Or.inr ⟨y, List.mem_cons_of_mem x hy, hp⟩

/-- Every row present after the per-user pair loop was already present or
carries the wallet id and token id of one enumerated pair. -/
theorem userPairLoop_mem (env : CycleEnv) (st : SyncState)
    (wallets : List WatchlistWallet) (tokens : List TrackedToken) (b : WalletBalance)
    (hb : b ∈ (userPairLoop env st wallets tokens).balances) :
    b ∈ st.balances ∨
      ∃ w, ∃ t, w ∈ wallets ∧ t ∈ tokens ∧ b.walletID = w.id ∧ b.tokenID = t.id := by
  rcases foldl_balances_mem _
      (fun w b2 => ∃ t, t ∈ tokens ∧ b2.walletID = w.id ∧ b2.tokenID = t.id)
      (fun st2 w b2 hb2 =>
        foldl_balances_mem _
          (fun t b3 => b3.walletID = w.id ∧ b3.tokenID = t.id)
          (fun st3 t b3 hb3 => userPairStep_mem env w t st3 b3 hb3)
          tokens st2 b2 hb2)
      wallets st b hb with h | ⟨w, hw, t, ht, h1, h2⟩
  · exact Or.inl h
  · exact Or.inr ⟨w, t, hw, ht, h1, h2⟩

/-- Claim C4, amended.  Fetched pairs always share the owning user: the
global dispatcher enqueues only matching-owner pairs, and the per-user
loop fetches exactly the pairs of the wallet and token lists of one user
(rows of user `u` by the repository queries, the hypotheses below), so
its pairs share that owner.  Snapshots persisted by the per-user path
reference the wallet and token rows of the fetched pair itself, hence rows of the
same owning user; snapshots persisted by the global path reference a
wallet row and a token row present in the store at write time, but they
need not share the owning user, since the address lookup of
`storeBalance` takes the first match across all users. -/
theorem cycle_owner_matching_amended :
    (∀ (wallets : List WatchlistWallet) (tokens : List TrackedToken) (task : FetchTask),
      task ∈ mkTasks wallets tokens →
      ∃ w t, w ∈ wallets ∧ t ∈ tokens ∧ w.userID = t.userID ∧
        task.walletAddress = w.walletAddress ∧ task.tokenAddress = t.tokenAddress) ∧
    (∀ (env : CycleEnv) (st : SyncState) (tasks : List FetchTask) (b : WalletBalance),
      b ∈ (processTasks env st tasks).balances →
      b ∈ st.balances ∨ SnapshotFromStore env b) ∧
    (∀ (env : CycleEnv) (u : Nat) (st : SyncState)
      (wallets : List WatchlistWallet) (tokens : List TrackedToken),
      env.walletsByUser u = Except.ok wallets →
      env.tokensByUser u = Except.ok tokens →
      (∀ w ∈ wallets, w.userID = u) →
      (∀ t ∈ tokens, t.userID = u) →
      (∀ w ∈ wallets, ∀ t ∈ tokens, w.userID = t.userID) ∧
      (∀ b ∈ (FetchBalancesForUser env u st).1.balances,
        b ∈ st.balances ∨
        ∃ w t, w ∈ wallets ∧ t ∈ tokens ∧ w.userID = t.userID ∧
          b.walletID = w.id ∧ b.tokenID = t.id)) := by
  refine ⟨mkTasks_owner, fun env st tasks b hb => processTasks_mem env tasks st b hb, ?_⟩
  intro env u st wallets tokens hw ht hwu htu
  constructor
  · intro w hmw t hmt
    rw [hwu w hmw, htu t hmt]
  · intro b hb
    rw [FetchBalancesForUser, hw, ht] at hb
    rcases userPairLoop_mem env st wallets tokens b hb with h | ⟨w, t, hmw, hmt, h1, h2⟩
    · exact Or.inl h
    · exact Or.inr ⟨w, t, hmw, hmt, by rw [hwu w hmw, htu t hmt], h1, h2⟩

/-- Witness for the amended claim C4 at concrete inputs: a matching-owner
task, the cross-user global snapshot referencing store rows, and a
per-user snapshot referencing the pair of one user. -/
theorem cycle_owner_matching_witness :
    (∃ w t, w ∈ [walletU1] ∧ t ∈ [tokenU1] ∧ w.userID = t.userID ∧
      FetchTask.walletAddress ⟨"0xW1", none⟩ = w.walletAddress ∧
      FetchTask.tokenAddress ⟨"0xW1", none⟩ = t.tokenAddress) ∧
    ((⟨2, 1, "7", 1⟩ : WalletBalance) ∈ initSync.balances ∨
      SnapshotFromStore crossEnv ⟨2, 1, "7", 1⟩) ∧
    ((⟨1, 1, "5", 100⟩ : WalletBalance) ∈ initSync.balances ∨
      ∃ w t, w ∈ [walletU1] ∧ t ∈ [tokenU1] ∧ w.userID = t.userID ∧
        WalletBalance.walletID ⟨1, 1, "5", 100⟩ = w.id ∧
        WalletBalance.tokenID ⟨1, 1, "5", 100⟩ = t.id) := by
  refine ⟨?_, ?_, ?_⟩
  · exact cycle_owner_matching_amended.1 [walletU1] [tokenU1] ⟨"0xW1", none⟩ (by decide)
  · exact cycle_owner_matching_amended.2.1 crossEnv initSync
      (mkTasks [walletU1, walletU2] [tokenU1, tokenU2]) ⟨2, 1, "7", 1⟩ (by decide)
  · exact (cycle_owner_matching_amended.2.2 steadyEnv 1 initSync [walletU1] [tokenU1]
      rfl rfl (by decide) (by decide)).2 ⟨1, 1, "5", 100⟩ (by decide)

/-- The three-attempt retry loop performs at most three fetches. -/
theorem retryLoop3_attempts_le (fetch : Nat → Except String Nat) (c : Bool) :
    (retryLoop fetch c 1 3).attempts ≤ 3 := by
  cases h1 : fetch 1 <;> cases h2 : fetch 2 <;> cases h3 : fetch 3 <;> cases c <;>
    simp [retryLoop, h1, h2, h3]

/-- When all three attempts fail and the context stays live, the loop
returns the aggregated error wrapping the last cause after exactly three
attempts and backoff waits of one and two seconds. -/
theorem retryLoop3_all_fail (fetch : Nat → Except String Nat) (e1 e2 e3 : String)
    (h1 : fetch 1 = Except.error e1) (h2 : fetch 2 = Except.error e2)
    (h3 : fetch 3 = Except.error e3) :
    retryLoop fetch false 1 3 = ⟨Except.error (Web3Error.retriesExhausted e3), 3, [1, 2]⟩ := by
  simp [retryLoop, h1, h2, h3]

/-- With a cancelled context the loop returns the context error right
after the first failed attempt, with no backoff wait. -/
theorem retryLoop3_ctx_done (fetch : Nat → Except String Nat) (e1 : String)
    (h1 : fetch 1 = Except.error e1) :
    retryLoop fetch true 1 3 = ⟨Except.error Web3Error.ctxCanceled, 1, []⟩ := by
  simp [retryLoop, h1]

/-- Claim C3: for valid addresses, both balance calls attempt the network
fetch at most 3 times; when the context stays live and all three attempts
fail, the call returns the aggregated error wrapping the last cause after
exactly 3 attempts (no 4th) with backoff waits of 1s and then 2s, the
realized prefix of the 1s, 2s, 4s doubling schedule; when the context is
already cancelled, the call fails with the context error immediately,
with at most the in-flight attempt and no backoff wait. -/
theorem balance_calls_retry_schedule (env : ChainEnv) (a ta wa : String)
    (e1 e2 e3 f1 f2 f3 : String)
    (hva : ValidateAddress a = true) (hvt : ValidateAddress ta = true)
    (hvw : ValidateAddress wa = true) :
    (GetETHBalance env a).attempts ≤ 3 ∧
    (GetTokenBalance env ta wa).attempts ≤ 3 ∧
    (env.ctxDone = false → env.fetchETH 1 = Except.error e1 →
      env.fetchETH 2 = Except.error e2 → env.fetchETH 3 = Except.error e3 →
      GetETHBalance env a =
        ⟨Except.error (Web3Error.retriesExhausted e3), true, 3, [1, 2]⟩) ∧
    (env.ctxDone = false → env.fetchTok 1 = Except.error f1 →
      env.fetchTok 2 = Except.error f2 → env.fetchTok 3 = Except.error f3 →
      GetTokenBalance env ta wa =
        ⟨Except.error (Web3Error.retriesExhausted f3), true, 3, [1, 2]⟩) ∧
    (env.ctxDone = true → env.fetchETH 1 = Except.error e1 →
      (GetETHBalance env a).result = Except.error Web3Error.ctxCanceled ∧
      (GetETHBalance env a).attempts ≤ 1 ∧ (GetETHBalance env a).waits = []) ∧
    (env.ctxDone = true → env.fetchTok 1 = Except.error f1 →
      (GetTokenBalance env ta wa).result = Except.error Web3Error.ctxCanceled ∧
      (GetTokenBalance env ta wa).attempts ≤ 1 ∧ (GetTokenBalance env ta wa).waits = []) := by
  refine ⟨?_, ?_, ?_, ?_, ?_, ?_⟩
  · cases hc : env.ctxDone <;> cases htr : env.tokenReady <;> cases hsl : env.selectToken <;>
      simp [GetETHBalance, limiterWait, hva, hc, htr, hsl, retryLoop3_attempts_le]
  · cases hc : env.ctxDone <;> cases htr : env.tokenReady <;> cases hsl : env.selectToken <;>
      simp [GetTokenBalance, limiterWait, hvt, hvw, hc, htr, hsl, retryLoop3_attempts_le]
  · intro hc h1 h2 h3
    cases htr : env.tokenReady <;> cases hsl : env.selectToken <;>
      simp [GetETHBalance, limiterWait, hva, hc, htr, hsl,
        retryLoop3_all_fail env.fetchETH e1 e2 e3 h1 h2 h3]
  · intro hc h1 h2 h3
    cases htr : env.tokenReady <;> cases hsl : env.selectToken <;>
      simp [GetTokenBalance, limiterWait, hvt, hvw, hc, htr, hsl,
        retryLoop3_all_fail env.fetchTok f1 f2 f3 h1 h2 h3]
  · intro hc h1
    cases htr : env.tokenReady <;> cases hsl : env.selectToken <;>
      simp [GetETHBalance, limiterWait, hva, hc, htr, hsl,
        retryLoop3_ctx_done env.fetchETH e1 h1]
  · intro hc h1
    cases htr : env.tokenReady <;> cases hsl : env.selectToken <;>
      simp [GetTokenBalance, limiterWait, hvt, hvw, hc, htr, hsl,
        retryLoop3_ctx_done env.fetchTok f1 h1]

/-- Witness for claim C3 at a concrete failing environment. -/
theorem balance_calls_retry_schedule_witness :
    (GetETHBalance chainEnvFail addrOk).attempts ≤ 3 ∧
    (GetTokenBalance chainEnvFail addrOk addrOk).attempts ≤ 3 :=
  ⟨(balance_calls_retry_schedule chainEnvFail addrOk addrOk addrOk
      "connection refused" "connection refused" "connection refused"
      "connection refused" "connection refused" "connection refused"
      (by decide) (by decide) (by decide)).1,
    (balance_calls_retry_schedule chainEnvFail addrOk addrOk addrOk
      "connection refused" "connection refused" "connection refused"
      "connection refused" "connection refused" "connection refused"
      (by decide) (by decide) (by decide)).2.1⟩

/-- Claim C8: an address failing validation makes `GetETHBalance` and
`GetTokenBalance` return the validation error at once: the rate limiter
is never consulted, no network attempt is made and nothing is retried. -/
theorem invalid_address_rejected_before_network (env : ChainEnv) (a ta wa : String) :
    (ValidateAddress a = false →
      GetETHBalance env a =
        ⟨Except.error (Web3Error.invalidAddress "invalid Ethereum address"), false, 0, []⟩) ∧
    (ValidateAddress ta = false ∨ ValidateAddress wa = false →
      GetTokenBalance env ta wa =
        ⟨Except.error (Web3Error.invalidAddress "invalid address"), false, 0, []⟩) := by
  constructor
  · intro h
    simp [GetETHBalance, h]
  · intro h
    rcases h with h | h <;> simp [GetTokenBalance, h]

/-- Witness for claim C8 at concrete invalid addresses. -/
theorem invalid_address_rejected_witness :
    GetETHBalance chainEnvFail "abc" =
      ⟨Except.error (Web3Error.invalidAddress "invalid Ethereum address"), false, 0, []⟩ ∧
    GetTokenBalance chainEnvFail "abc" addrOk =
      ⟨Except.error (Web3Error.invalidAddress "invalid address"), false, 0, []⟩ :=
  ⟨(invalid_address_rejected_before_network chainEnvFail "abc" "abc" addrOk).1 (by decide),
    (invalid_address_rejected_before_network chainEnvFail "abc" "abc" addrOk).2
      (Or.inl (by decide))⟩

/-- Claim C1: the code accepts a length-42 string of the form `0x`
followed by 40 non-hexadecimal characters, although the specification
(and the comment inside `ValidateAddress` itself) requires hexadecimal
characters: the result of the hex parse is discarded, so only the prefix
and the length are checked.  The positive half of the claim holds: every
well-formed address is accepted. -/
theorem validateAddress_accepts_nonhex :
    ValidateAddress badHexAddr = true ∧ specValidAddress badHexAddr = false ∧
    badHexAddr.length = 42 ∧ hasPrefix0x badHexAddr = true ∧
    (badHexAddr.toList.drop 2).all hexDigit = false ∧
    specValidAddress addrOk = true ∧ ValidateAddress addrOk = true := by decide

/-- Claim C10: `Stop` is not idempotent.  The first call closes the stop
channel and returns after the join; a second call closes an
already-closed channel, which panics in the Go runtime. -/
theorem second_stop_panics :
    StopService (StartService NewBalanceFetcherService) = Except.ok stoppedHandle ∧
    StopService stoppedHandle = Except.error GoPanic.closeOfClosedChannel := by decide

/-- The bucket never holds more than its capacity. -/
theorem rlRun_le_cap (cap : Nat) :
    ∀ (es : List RLEvent) (s s2 : Nat), s ≤ cap → rlRun cap s es = some s2 → s2 ≤ cap := by
  intro es
  induction es with
  | nil =>
    intro s s2 hs h
    simp [rlRun] at h
    omega
  | cons e rest ih =>
    intro s s2 hs h
    cases e with
    | refill t =>
      rw [rlRun] at h
      exact ih _ _ (by omega) h
    | acquire t =>
      rw [rlRun] at h
      by_cases hz : s = 0
      · rw [if_pos hz] at h; cases h
      · rw [if_neg hz] at h; exact ih _ _ (by omega) h

/-- Unfolding the window acquisition count over a cons. -/
theorem acqInWindow_cons (t cap : Nat) (e : RLEvent) (es : List RLEvent) :
    acqInWindow t cap (e :: es) =
      (if (e.isAcq && rlInWindow t cap e.time) = true then 1 else 0) + acqInWindow t cap es := by
  rw [acqInWindow, acqInWindow, List.filter_cons]
  split <;> simp [Nat.add_comm]

/-- Unfolding the window refill count over a cons. -/
theorem refillsInWindow_cons (t cap : Nat) (e : RLEvent) (es : List RLEvent) :
    refillsInWindow t cap (e :: es) =
      (if (!e.isAcq && rlInWindow t cap e.time) = true then 1 else 0) +
        refillsInWindow t cap es := by
  rw [refillsInWindow, refillsInWindow, List.filter_cons]
  split <;> simp [Nat.add_comm]

/-- No counted acquisition lies beyond the window. -/
theorem acqInWindow_zero (t cap : Nat) :
    ∀ es : List RLEvent, (∀ e ∈ es, t + cap < e.time) → acqInWindow t cap es = 0 := by
  intro es
  induction es with
  | nil => intro _; rfl
  | cons e rest ih =>
    intro h
    rw [acqInWindow_cons]
    have he : rlInWindow t cap e.time = false := by
      have := h e (List.mem_cons_self e rest)
      simp [rlInWindow]
      omega
    rw [he]
    simp [ih fun x hx => h x (List.mem_cons_of_mem e hx)]

/-- Decompose a boolean conjunction hypothesis. -/
theorem bool_and_split {a b : Bool} (h : (a && b) = true) : a = true ∧ b = true := by
  simp at h
  exact h

/-- A sorted trace stays sorted without its head. -/
theorem timesSorted_rest (e : RLEvent) (es : List RLEvent)
    (h : timesSorted (e :: es) = true) : timesSorted es = true := by
  cases es with
  | nil => rfl
  | cons e2 rest =>
    rw [timesSorted] at h
    exact (bool_and_split h).2

/-- In a sorted trace the head time bounds all later times. -/
theorem timesSorted_head_le (e : RLEvent) :
    ∀ es : List RLEvent, timesSorted (e :: es) = true →
      ∀ x ∈ es, e.time ≤ x.time := by
  intro es
  induction es generalizing e with
  | nil => intro _ x hx; cases hx
  | cons e2 rest ih =>
    intro h x hx
    rw [timesSorted] at h
    obtain ⟨h1, h2⟩ := bool_and_split h
    have h1n : e.time ≤ e2.time := of_decide_eq_true h1
    rcases List.mem_cons.mp hx with rfl | hx
    · exact h1n
    · exact Nat.le_trans h1n (ih e2 h2 x hx)

/-- Strictly increasing refill times put at most `cap` refills into a
window of `cap` tick units. -/
theorem refillsInWindow_le (t cap : Nat) :
    ∀ (es : List RLEvent) (last : Nat), refillsSpaced last es = true →
      refillsInWindow t cap es ≤ t + cap - max last t := by
  intro es
  induction es with
  | nil => intro last _; simp [refillsInWindow]
  | cons e rest ih =>
    intro last h
    cases e with
    | acquire u =>
      rw [refillsSpaced] at h
      rw [refillsInWindow_cons]
      simpa [RLEvent.isAcq] using ih last h
    | refill u =>
      rw [refillsSpaced] at h
      obtain ⟨h1, h2⟩ := bool_and_split h
      have hlu : last < u := of_decide_eq_true h1
      have hrec := ih u h2
      rw [refillsInWindow_cons]
      by_cases hin : rlInWindow t cap u = true
      · have hin2 : t < u ∧ u ≤ t + cap := by
          have := hin
          simp [rlInWindow] at this
          exact this
        simp only [RLEvent.isAcq, RLEvent.time, Bool.not_false, Bool.true_and, hin, if_pos]
        omega
      · have hin0 : rlInWindow t cap u = false := by
          cases hr : rlInWindow t cap u
          · rfl
          · exact absurd hr hin
        simp only [RLEvent.isAcq, RLEvent.time, Bool.not_false, Bool.true_and, hin0,
          Bool.false_eq_true, if_false]
        omega

/-- Once every event lies after the window start, the acquisitions
counted inside the window are covered by the tokens carried in plus the
refills inside the window. -/
theorem acq_window_inphase (cap t : Nat) :
    ∀ (es : List RLEvent) (s s2 : Nat), timesSorted es = true →
      (∀ e ∈ es, t < e.time) → rlRun cap s es = some s2 →
      acqInWindow t cap es ≤ s + refillsInWindow t cap es := by
  intro es
  induction es with
  | nil => intro s s2 _ _ _; simp [acqInWindow]
  | cons e rest ih =>
    intro s s2 hs hmin hrun
    have hst : timesSorted rest = true := timesSorted_rest e rest hs
    have hminr : ∀ x ∈ rest, t < x.time := fun x hx => hmin x (List.mem_cons_of_mem e hx)
    have hhead : t < e.time := hmin e (List.mem_cons_self e rest)
    cases e with
    | refill u =>
      rw [rlRun] at hrun
      rw [acqInWindow_cons, refillsInWindow_cons]
      by_cases hu : u ≤ t + cap
      · have hwin : rlInWindow t cap u = true := by
          rw [RLEvent.time] at hhead
          simp [rlInWindow]
          omega
        have hrec := ih (min (s + 1) cap) s2 hst hminr hrun
        simp only [RLEvent.isAcq, RLEvent.time, Bool.not_false, Bool.true_and, hwin,
          Bool.false_and, Bool.false_eq_true, if_false, if_pos]
        omega
      · have hafter : ∀ x ∈ rest, t + cap < x.time := by
          intro x hx
          have h1 := timesSorted_head_le (RLEvent.refill u) rest hs x hx
          rw [RLEvent.time] at h1
          rw [RLEvent.time] at hhead
          omega
        have hz := acqInWindow_zero t cap rest hafter
        simp only [RLEvent.isAcq, Bool.false_and, Bool.false_eq_true, if_false]
        omega
    | acquire u =>
      rw [rlRun] at hrun
      by_cases hzs : s = 0
      · rw [if_pos hzs] at hrun; cases hrun
      rw [if_neg hzs] at hrun
      rw [acqInWindow_cons, refillsInWindow_cons]
      by_cases hu : u ≤ t + cap
      · have hwin : rlInWindow t cap u = true := by
          rw [RLEvent.time] at hhead
          simp [rlInWindow]
          omega
        have hrec := ih (s - 1) s2 hst hminr hrun
        simp only [RLEvent.isAcq, RLEvent.time, Bool.true_and, Bool.not_true, Bool.false_and,
          Bool.false_eq_true, if_false, hwin, if_pos]
        omega
      · have hafter : ∀ x ∈ rest, t + cap < x.time := by
          intro x hx
          have h1 := timesSorted_head_le (RLEvent.acquire u) rest hs x hx
          rw [RLEvent.time] at h1
          rw [RLEvent.time] at hhead
          omega
        have hz := acqInWindow_zero t cap rest hafter
        have hwin : rlInWindow t cap u = false := by
          simp [rlInWindow]
          omega
        simp only [RLEvent.isAcq, RLEvent.time, Bool.true_and, Bool.not_true, Bool.false_and,
          Bool.false_eq_true, if_false, hwin]
        omega

/-- In any feasible trace at most `cap + cap` acquisitions fall into one
rolling window: at most `cap` stored tokens at the window start plus at
most `cap` refills inside it. -/
theorem acq_window_le_two_cap (cap t : Nat) :
    ∀ (es : List RLEvent) (s s2 last : Nat), timesSorted es = true →
      refillsSpaced last es = true → rlRun cap s es = some s2 → s ≤ cap →
      acqInWindow t cap es ≤ cap + cap := by
  intro es
  induction es with
  | nil => intro s s2 last _ _ _ _; simp [acqInWindow]
  | cons e rest ih =>
    intro s s2 last hs hr hrun hcap
    by_cases hgt : t < e.time
    · have hmin : ∀ x ∈ e :: rest, t < x.time := by
        intro x hx
        rcases List.mem_cons.mp hx with rfl | hx
        · exact hgt
        · exact Nat.lt_of_lt_of_le hgt (timesSorted_head_le e rest hs x hx)
      have h1 := acq_window_inphase cap t (e :: rest) s s2 hs hmin hrun
      have h2 := refillsInWindow_le t cap (e :: rest) last hr
      omega
    · cases e with
      | refill u =>
        rw [rlRun] at hrun
        rw [refillsSpaced] at hr
        obtain ⟨hr1, hr2⟩ := bool_and_split hr
        have hst : timesSorted rest = true := timesSorted_rest _ rest hs
        have hrec := ih (min (s + 1) cap) s2 u hst hr2 hrun (by omega)
        rw [acqInWindow_cons]
        simp only [RLEvent.isAcq, Bool.false_and, Bool.false_eq_true, if_false]
        omega
      | acquire u =>
        rw [rlRun] at hrun
        by_cases hzs : s = 0
        · rw [if_pos hzs] at hrun; cases hrun
        rw [if_neg hzs] at hrun
        rw [refillsSpaced] at hr
        have hst : timesSorted rest = true := timesSorted_rest _ rest hs
        have hrec := ih (s - 1) s2 last hst hr hrun (by omega)
        rw [acqInWindow_cons]
        have hwin : rlInWindow t cap u = false := by
          rw [RLEvent.time] at hgt
          simp [rlInWindow]
          omega
        simp only [RLEvent.isAcq, RLEvent.time, Bool.true_and, hwin, Bool.not_true,
          Bool.false_eq_true, if_false]
        omega

/-- Claim C5, amended: a feasible execution of the token bucket at rate
`cap` admits at most `2 * cap` successful acquisitions in any rolling
1-second window, and the bucket never holds more than `cap` tokens along
any prefix; the bound `cap` itself is not kept (see the counterexample). -/
theorem rateLimiter_window_bound_and_capacity (cap t : Nat)
    (es es1 es2 : List RLEvent) (s2 : Nat)
    (hv : ValidExec cap es = true) :
    acqInWindow t cap es ≤ 2 * cap ∧
    (es = es1 ++ es2 → rlRun cap 0 es1 = some s2 → s2 ≤ cap) := by
  rw [ValidExec] at hv
  obtain ⟨hv1, hv4⟩ := bool_and_split hv
  obtain ⟨hv1, hv3⟩ := bool_and_split hv1
  obtain ⟨hv1, hv2⟩ := bool_and_split hv1
  constructor
  · obtain ⟨sf, hsf⟩ := Option.isSome_iff_exists.mp hv2
    have := acq_window_le_two_cap cap t es 0 sf 0 hv3 hv4 hsf (Nat.zero_le cap)
    omega
  · intro heq hrun
    exact rlRun_le_cap cap es1 0 s2 (Nat.zero_le cap) hrun

/-- Claim C5, counterexample: at rate 2 a feasible trace performs 4
successful acquisitions inside the rolling window right after tick 2
(two stored tokens plus the two refills of the window), violating the
claimed bound of R = 2. -/
theorem rateLimiter_window_exceeds_rate :
    ValidExec 2 burstTrace = true ∧ acqInWindow 2 2 burstTrace = 4 ∧
    ¬(acqInWindow 2 2 burstTrace ≤ 2) := by decide

/-- Witness for the amended claim C5 at a small feasible trace. -/
theorem rateLimiter_bound_witness :
    acqInWindow 0 1 calmTrace ≤ 2 * 1 ∧
    (calmTrace = [RLEvent.refill 1] ++ [RLEvent.acquire 1] →
      rlRun 1 0 [RLEvent.refill 1] = some 1 → 1 ≤ 1) :=
  rateLimiter_window_bound_and_capacity 1 0 calmTrace
    [RLEvent.refill 1] [RLEvent.acquire 1] 1 (by decide)

/-- One step preserves the stop invariant. -/
theorem schedStep_inv {s s2 : SchedState} (h : SchedInv s) (hstep : SchedStep s s2) :
    SchedInv s2 := by
  cases hstep with
  | tick => intro hr; exact h hr
  | persistSnapshot hf => intro hr; exact h hr
  | fetcherExit => intro hr; exact ⟨rfl, (h hr).2⟩
  | cleanupExit => intro hr; exact ⟨(h hr).1, rfl⟩
  | stopSignal => intro hr; exact h hr
  | stopReturn hc hf hcl => intro hr; exact ⟨hf, hcl⟩

/-- Reachability preserves the stop invariant. -/
theorem schedReaches_inv {s s2 : SchedState} (hinv : SchedInv s) (h : SchedReaches s s2) :
    SchedInv s2 := by
  induction h with
  | refl => exact hinv
  | tail hr hstep ih => exact schedStep_inv ih hstep

/-- The initial state satisfies the stop invariant. -/
theorem schedInit_inv : SchedInv schedInit := by
  intro h
  simp [schedInit] at h

/-- After `Stop` has returned, no step changes the snapshot list. -/
theorem schedStep_frozen {s s2 : SchedState} (hp : SchedStopped s) (hstep : SchedStep s s2) :
    SchedStopped s2 ∧ s2.snapshots = s.snapshots := by
  obtain ⟨h1, h2, h3⟩ := hp
  cases hstep with
  | tick => exact ⟨⟨h1, h2, h3⟩, rfl⟩
  | persistSnapshot hf => rw [h2] at hf; cases hf
  | fetcherExit => exact ⟨⟨h1, rfl, h3⟩, rfl⟩
  | cleanupExit => exact ⟨⟨h1, h2, rfl⟩, rfl⟩
  | stopSignal => exact ⟨⟨h1, h2, h3⟩, rfl⟩
  | stopReturn hc hf hcl => exact ⟨⟨rfl, h2, h3⟩, rfl⟩

/-- After `Stop` has returned, the snapshot list never changes again. -/
theorem schedReaches_frozen {s s2 : SchedState} (hp : SchedStopped s)
    (h : SchedReaches s s2) : SchedStopped s2 ∧ s2.snapshots = s.snapshots := by
  induction h with
  | refl => exact ⟨hp, rfl⟩
  | tail hr hstep ih =>
    obtain ⟨hpb, heq⟩ := ih
    obtain ⟨hpc, heq2⟩ := schedStep_frozen hpb hstep
    exact ⟨hpc, heq2.trans heq⟩

/-- Claim C9: in every run starting after `Start`, at the moment `Stop`
returns both background goroutines (the cycle driver and the retention
sweeper) have exited, and from then on the set of persisted snapshots
never changes: no snapshot is created after `Stop` returns. -/
theorem stop_joins_background_and_freezes_snapshots (s1 s2 : SchedState)
    (h0 : SchedReaches schedInit s1) (hs : s1.stopReturned = true)
    (h1 : SchedReaches s1 s2) :
    s1.fetcherRunning = false ∧ s1.cleanupRunning = false ∧ s2.snapshots = s1.snapshots := by
  have hinv := schedReaches_inv schedInit_inv h0
  obtain ⟨hf, hc⟩ := hinv hs
  obtain ⟨_, heq⟩ := schedReaches_frozen ⟨hs, hf, hc⟩ h1
  exact ⟨hf, hc, heq⟩

/-- Witness for claim C9 along a concrete shutdown trace. -/
theorem stop_joins_witness :
    c9sRet.fetcherRunning = false ∧ c9sRet.cleanupRunning = false ∧
    c9sTick.snapshots = c9sRet.snapshots := by
  have h0 : SchedReaches schedInit c9sRet :=
    SchedReaches.tail
      (SchedReaches.tail
        (SchedReaches.tail
          (SchedReaches.tail (SchedReaches.refl schedInit)
            (SchedStep.stopSignal schedInit))
          (SchedStep.fetcherExit c9sClosed))
        (SchedStep.cleanupExit c9sFd))
      (SchedStep.stopReturn c9sCd rfl rfl rfl)
  have h1 : SchedReaches c9sRet c9sTick :=
    SchedReaches.tail (SchedReaches.refl c9sRet) (SchedStep.tick c9sRet)
  exact stop_joins_background_and_freezes_snapshots c9sRet c9sTick h0 rfl h1
